import Mathlib

/-!
Shallow embedding of the multi-threaded downloader and worker pool of
re-asmr-spider-rclone (Go).  Pure data and control flow of the Go source are
translated into executable Lean definitions; I/O (HTTP, filesystem) is
abstracted into explicit inputs (responses, read chunks) and outputs
(written byte lists, flags).
-/

namespace Spider

/-- Segment metadata; mirrors Go `BlockMetaData` (downloader, lines 27-31). -/
structure BlockMetaData where
  BeginOffset : Int
  EndOffset : Int
  DownloadedSize : Int
deriving DecidableEq, Repr

/-- The partition loop of `initDownload` (downloader, lines 214-225):

    var tmp int64
    for tmp+blockSize < contentLength { append block [tmp, tmp+blockSize-1]; tmp += blockSize }
    append block [tmp, contentLength-1]

`none` models non-termination of the Go loop: when `blockSize ≤ 0` and the
loop condition holds, `tmp` never increases past the bound, so the Go loop
appends blocks forever. -/
def partitionLoop (blockSize contentLength tmp : Int) : Option (List BlockMetaData) :=
  if tmp + blockSize < contentLength then
    if h : 0 < blockSize then
      (partitionLoop blockSize contentLength (tmp + blockSize)).map
        (fun rest => ⟨tmp, tmp + blockSize - 1, 0⟩ :: rest)
    else
      none
  else
    some [⟨tmp, contentLength - 1, 0⟩]
termination_by (contentLength - tmp).toNat
decreasing_by omega

/-- The block list built by `initDownload`, starting from `tmp = 0`. -/
def mkBlocks (blockSize contentLength : Int) : Option (List BlockMetaData) :=
  partitionLoop blockSize contentLength 0

/-- Block-size computation of `initDownload` (downloader, lines 203-208). -/
def blockSizeOf (contentLength threadCount : Int) : Int :=
  if 1024 * 1024 < contentLength then contentLength / threadCount - 10
  else contentLength

/-- `covers lo hi l` : the blocks of `l`, in order, tile the integer interval
`[lo, hi]` contiguously, disjointly and completely (each block nonempty). -/
def covers : Int → Int → List BlockMetaData → Prop
  | lo, hi, [] => lo = hi + 1
  | lo, hi, blk :: rest =>
      blk.BeginOffset = lo ∧ lo ≤ blk.EndOffset ∧ blk.EndOffset ≤ hi ∧
        covers (blk.EndOffset + 1) hi rest

/-- An HTTP response as the downloader sees it: status code, the
`Content-Length` reported, and the body bytes. -/
structure HTTPResp where
  status : Int
  contentLength : Int
  body : List Nat
deriving DecidableEq, Repr

/-- Downloader errors (Go `error` values returned by the download paths). -/
inductive DLErr where
  /-- `m.Client.Do` / request construction failed. -/
  | transport
  /-- "response status unsuccessful: <code>" (status < 200 or ≥ 300). -/
  | badStatus (code : Int)
  /-- "unknown status code" (2xx other than 200/206 in `initDownload`). -/
  | unknownStatus
  /-- a non-EOF read error from the response body. -/
  | readFailure
deriving DecidableEq, Repr

/-- Result of `initDownload` (downloader, lines 137-229).
`fallback w` : `copyStream` streamed the whole body `w` into the (truncated)
destination file and returned `ErrUnsupportedMultiThreading`.
`blocks bs` : status 206, partition computed, `m.Blocks = bs`. -/
inductive InitResult where
  | fallback (written : List Nat)
  | blocks (bs : List BlockMetaData)
  | err (e : DLErr)
deriving DecidableEq, Repr

/-- `initDownload` (downloader, lines 137-229) as a function of the probe
response (`none` = transport error).  The outer `none` models
non-termination of the partition loop. -/
def initDownload : Option HTTPResp → Int → Option InitResult
  | none, _ => some (.err .transport)
  | some resp, threadCount =>
    if resp.status < 200 ∨ 300 ≤ resp.status then some (.err (.badStatus resp.status))
    else if resp.status = 200 then some (.fallback resp.body)
    else if resp.status = 206 then
      let contentLength := resp.contentLength
      let blockSize := blockSizeOf contentLength threadCount
      if blockSize = contentLength then some (.fallback resp.body)
      else (mkBlocks blockSize contentLength).map .blocks
    else some (.err .unknownStatus)

/-- `singleThreadDownload` (downloader, lines 318-363) as a function of its
response: opens the destination with `O_TRUNC` and copies the whole body.
The source performs no status-code check, so the body is returned as the
file content for every status. -/
def singleThreadDownload : Option HTTPResp → Except DLErr (List Nat)
  | none => .error .transport
  | some resp => .ok resp.body

/-- What a single `resp.Body.Read` returned: the bytes delivered and the
error value (`none` = nil, `eof` = `io.EOF`, `other` = any other error). -/
inductive ReadErr where
  | eof
  | other
deriving DecidableEq, Repr

/-- The read/write loop of `downloadBlocks` (downloader, lines 270-314),
with the rate-limiter sleeps abstracted away (they do not change data flow).
Input: the sequence of `Read` results; an exhausted list behaves like a Go
reader returning `(0, io.EOF)`.  Output on success: the updated block and
the bytes written at the segment's file region. -/
def downloadLoop : List (List Nat × Option ReadErr) → BlockMetaData → List Nat →
    Except DLErr (BlockMetaData × List Nat)
  | [], blk, written => .ok (blk, written)
  | (chunk, rerr) :: rest, blk, written =>
    let n : Int := chunk.length
    if 0 < n then
      let remaining := blk.EndOffset + 1 - blk.BeginOffset
      let bytesToWrite := if n > remaining then remaining else n
      let written' := written ++ chunk.take bytesToWrite.toNat
      let blk' : BlockMetaData :=
        ⟨blk.BeginOffset + bytesToWrite, blk.EndOffset, blk.DownloadedSize + bytesToWrite⟩
      if blk'.BeginOffset > blk'.EndOffset then .ok (blk', written')
      else
        match rerr with
        | some .eof => .ok (blk', written')
        | some .other => .error .readFailure
        | none => downloadLoop rest blk' written'
    else
      match rerr with
      | some .eof => .ok (blk, written)
      | some .other => .error .readFailure
      | none => downloadLoop rest blk written

/-- `downloadBlocks` (downloader, lines 231-316) as a function of the
per-segment response (`none` = transport error). -/
def downloadBlocks (resp : Option (Int × List (List Nat × Option ReadErr)))
    (blk : BlockMetaData) : Except DLErr (BlockMetaData × List Nat) :=
  match resp with
  | none => .error .transport
  | some (status, reads) =>
    if status < 200 ∨ 300 ≤ status then .error (.badStatus status)
    else downloadLoop reads blk []

/-- Outcome of `Download` (downloader, lines 109-135).
`single intermediate result` : the single-stream path ran; `intermediate`
is the content `copyStream` had already written when the fallback signal
fired (`none` when `ThreadCount < 2` skipped the probe entirely).
`multi bs` : the segmented path was launched with blocks `bs`. -/
inductive DownloadRun where
  | single (intermediate : Option (List Nat)) (result : Except DLErr (List Nat))
  | multi (bs : List BlockMetaData)
  | failed (e : DLErr)
deriving Repr

/-- `Download` (downloader, lines 109-135): `probe` is the response to the
`Range: bytes=0-` probe request, `second` the response to the fresh request
`singleThreadDownload` would issue. -/
def Download (threadCount : Int) (probe second : Option HTTPResp) : Option DownloadRun :=
  if threadCount < 2 then some (.single none (singleThreadDownload second))
  else
    match initDownload probe threadCount with
    | none => none
    | some (.err e) => some (.failed e)
    | some (.fallback w) => some (.single (some w) (singleThreadDownload second))
    | some (.blocks bs) => some (.multi bs)

/-- State of `WorkerPool.Start` (worker.go, lines 73-92) together with ghost
history counters.  `queued` are tasks sitting in `TaskQueue`; `launched` are
goroutines the dispatcher has spawned (after passing the `Count < Limit`
gate and `wp.Add(1)`) that have not yet executed their `Count++`; `running`
are goroutines past `Count++` and before `Count--`. -/
structure PoolState where
  Limit : Int
  queued : Nat
  launched : Nat
  Count : Int
  running : Nat
  admitted : Nat
  started : Nat
  finished : Nat
deriving DecidableEq, Repr

/-- Initial pool state: `burst` tasks enqueued, nothing running. -/
def initState (limit : Int) (burst : Nat) : PoolState :=
  ⟨limit, burst, 0, 0, 0, 0, 0, 0⟩

/-- Interleaving semantics of `WorkerPool.Start` (worker.go, lines 73-92):
`admit` is the dispatcher taking a task from the channel, waiting until
`Count < Limit` and spawning the goroutine; `start` is a spawned goroutine
acquiring the lock and executing `Count++`; `finish` is its deferred
`Count--` / `Done()` / `Broadcast()`.  The increment happens in the
goroutine, after admission — exactly as in the source. -/
inductive Step : PoolState → PoolState → Prop where
  | dispatch {s : PoolState} (hq : 0 < s.queued) (hgate : s.Count < s.Limit) :
      Step s { s with queued := s.queued - 1, launched := s.launched + 1,
                      admitted := s.admitted + 1 }
  | start {s : PoolState} (hl : 0 < s.launched) :
      Step s { s with launched := s.launched - 1, running := s.running + 1,
                      Count := s.Count + 1, started := s.started + 1 }
  | finish {s : PoolState} (hr : 0 < s.running) :
      Step s { s with running := s.running - 1, Count := s.Count - 1,
                      finished := s.finished + 1 }

/-- Reachability of a pool state from an initial burst. -/
def PoolReachable (limit : Int) (burst : Nat) (s : PoolState) : Prop :=
  Relation.ReflTransGen Step (initState limit burst) s

/-- Pause threshold, 18 GiB (worker.go, line 18). -/
def RclonePauseThreshold : Int := 18 * 1024 * 1024 * 1024

/-- Resume threshold, 15 GiB (worker.go, line 20). -/
def RcloneResumeThreshold : Int := 15 * 1024 * 1024 * 1024

/-- One observation of the cache-usage probe: a successful reading, or a
probe error (connection failure / read failure / JSON decode failure). -/
inductive ProbeSample where
  | ok (usage : Int)
  | fail
deriving DecidableEq, Repr

/-- Inner wait loop of the backpressure gate (worker.go, lines 130-141):
each iteration sleeps one poll interval, then probes; it exits only on a
successful probe strictly below the resume threshold.  Returns the number
of sleeps performed and the unconsumed samples; `none` models the loop
still blocked when the given sample sequence runs out. -/
def gateInner : List ProbeSample → Option (Nat × List ProbeSample)
  | [] => none
  | .ok v :: rest =>
      if v < RcloneResumeThreshold then some (1, rest)
      else (gateInner rest).map (fun p => (p.1 + 1, p.2))
  | .fail :: rest => (gateInner rest).map (fun p => (p.1 + 1, p.2))

/-- Outer flow-control loop of the backpressure gate (worker.go, lines
113-147): a failed probe logs, sleeps one interval and retries; a reading
above the pause threshold enters the inner wait loop; any other reading
proceeds at once. -/
def gateLoop : List ProbeSample → Option (Nat × List ProbeSample)
  | [] => none
  | .fail :: rest => (gateLoop rest).map (fun p => (p.1 + 1, p.2))
  | .ok u :: rest =>
      if RclonePauseThreshold < u then gateInner rest
      else some (0, rest)

/-- Success/failure of each filesystem call in the relocation block
(worker.go, lines 150-175): `os.MkdirAll`, `os.Open` of the staging file,
`os.Create` of the final path, `io.Copy`. -/
structure RelocEnv where
  mkdirOk : Bool
  openOk : Bool
  createOk : Bool
  copyOk : Bool
deriving DecidableEq, Repr

/-- Observable result of the relocation block. -/
structure RelocOutcome where
  stagingDeleted : Bool
  finalWritten : Bool
  errorLogged : Bool
deriving DecidableEq, Repr

/-- The relocation block (worker.go, lines 150-175): ensure the final
directory, open staging, create destination, copy; `os.Remove` of the
staging file runs only after `io.Copy` returned no error; every failure
path only calls the error logger. -/
def relocate (e : RelocEnv) : RelocOutcome :=
  if !e.mkdirOk then ⟨false, false, true⟩
  else if !e.openOk then ⟨false, false, true⟩
  else if !e.createOk then ⟨false, false, true⟩
  else if !e.copyOk then ⟨false, false, true⟩
  else ⟨true, true, false⟩

/-- Observable result of one task execution in the pool. -/
structure TaskOutcome where
  hookCalled : Bool
  stagingRemoved : Bool
  relocated : Bool
  sleeps : Nat
deriving DecidableEq, Repr

/-- The per-task executor body (worker.go, lines 94-184): a failed download
logs, removes the staging file and fires the on-failure hook; a successful
download with a distinct final path passes the backpressure gate and then
relocates.  `none` models the gate polling forever. -/
def runTask (dl : Except DLErr Unit) (hasDistinctFinal : Bool)
    (samples : List ProbeSample) (e : RelocEnv) : Option TaskOutcome :=
  match dl with
  | .error _ => some ⟨true, true, false, 0⟩
  | .ok _ =>
    if hasDistinctFinal then
      match gateLoop samples with
      | none => none
      | some (k, _) =>
          let r := relocate e
          some ⟨false, r.stagingDeleted, r.finalWritten, k⟩
    else some ⟨false, false, false, 0⟩

/-- A JSON value, as decoded by `encoding/json`. -/
inductive Json where
  | null
  | bool (b : Bool)
  | num (n : Int)
  | str (s : String)
  | arr (elements : List Json)
  | obj (members : List (String × Json))

/-- Unicode simple case folding of one code point, restricted to what can
ever make two strings fold-equal when one of them is a plain ASCII struct
name such as `diskCache` or `bytesUsed`: ASCII `A`-`Z` fold to `a`-`z`, and
the only non-ASCII code points whose simple fold lands in ASCII are
U+212A KELVIN SIGN (folds to `k`) and U+017F LATIN SMALL LETTER LONG S
(folds to `s`).  All other code points are left unchanged, which is sound
for comparisons against ASCII names. -/
def foldNat (c : Char) : Nat :=
  if 65 ≤ c.toNat ∧ c.toNat ≤ 90 then c.toNat + 32
  else if c.toNat = 0x212A then 107
  else if c.toNat = 0x17F then 115
  else c.toNat

/-- `EqualFold` of two member names (the case-insensitive comparison
`encoding/json` uses for its field-matching fallback), computed via
`foldNat` — exact for the ASCII names this decoder matches against. -/
def eqFold (a b : String) : Bool :=
  a.data.map foldNat == b.data.map foldNat

/-- Exact member lookup (the first phase of `encoding/json` field
matching). -/
def jsonField : List (String × Json) → String → Option Json
  | [], _ => none
  | (k, v) :: rest, key => if k == key then some v else jsonField rest key

/-- Case-insensitive member lookup (the `EqualFold` fallback phase of
`encoding/json` field matching). -/
def jsonFieldFold : List (String × Json) → String → Option Json
  | [], _ => none
  | (k, v) :: rest, key => if eqFold k key then some v else jsonFieldFold rest key

/-- Member lookup as `encoding/json` performs it when decoding into a Go
struct field: an exact name match is preferred, and failing that the first
case-insensitive (`EqualFold`) match is used. -/
def jsonMember (members : List (String × Json)) (key : String) : Option Json :=
  match jsonField members key with
  | some v => some v
  | none => jsonFieldFold members key

/-- Decoding of the `bytesUsed` field (an `int64`): absent or `null` leaves
the zero value; a number is taken as-is; any other JSON type is an
`UnmarshalTypeError`. -/
def decodeBytesUsed : Option Json → Except Unit Int
  | none => .ok 0
  | some .null => .ok 0
  | some (.num n) => .ok n
  | some _ => .error ()

/-- Decoding of the `diskCache` field (a nested struct): absent or `null`
leaves the zero value; an object decodes its `bytesUsed` member; any other
JSON type is an `UnmarshalTypeError`. -/
def decodeDiskCache : Option Json → Except Unit Int
  | none => .ok 0
  | some .null => .ok 0
  | some (.obj members) => decodeBytesUsed (jsonMember members "bytesUsed")
  | some _ => .error ()

/-- `json.Unmarshal(body, &RcloneVFSStats{...})` (worker.go, lines 36-40
and 64-67): the top level must be an object (or `null`); the result is the
decoded `stats.DiskCache.BytesUsed`. -/
def unmarshalStats : Json → Except Unit Int
  | .null => .ok 0
  | .obj members => decodeDiskCache (jsonMember members "diskCache")
  | _ => .error ()

/-- `getRcloneCacheUsage` (worker.go, lines 51-71) as a function of the
probe response: `none` models a connection or body-read failure; otherwise
the body is unmarshalled.  The HTTP status code of the response is never
inspected by the source, so it is carried but unused. -/
def getRcloneCacheUsage : Option (Int × Json) → Except Unit Int
  | none => .error ()
  | some (_, body) => unmarshalStats body

/-- The probe observation the backpressure gate derives from one call of
`getRcloneCacheUsage` (worker.go, lines 114-121). -/
def probeSampleOf (r : Option (Int × Json)) : ProbeSample :=
  match getRcloneCacheUsage r with
  | .ok u => .ok u
  | .error _ => .fail

theorem partitionLoop_covers (blockSize contentLength : Int) (hb : 0 < blockSize) :
    ∀ tmp, tmp < contentLength →
      ∃ l, partitionLoop blockSize contentLength tmp = some l ∧
        covers tmp (contentLength - 1) l := by
  intro tmp htmp
  rw [partitionLoop]
  by_cases hc : tmp + blockSize < contentLength
  · obtain ⟨l, hl, hcov⟩ :=
      partitionLoop_covers blockSize contentLength hb (tmp + blockSize) (by omega)
    refine ⟨⟨tmp, tmp + blockSize - 1, 0⟩ :: l, ?_, ?_⟩
    · simp [hc, hb, hl]
    · exact ⟨rfl, by dsimp only; omega, by dsimp only; omega, by simpa using hcov⟩
  · refine ⟨[⟨tmp, contentLength - 1, 0⟩], by simp [hc], ?_⟩
    exact ⟨rfl, by dsimp only; omega, by dsimp only; omega, by simp [covers]⟩
termination_by tmp => (contentLength - tmp).toNat
decreasing_by omega

/-- Every block of a covering list lies inside the interval. -/
theorem covers_mem_bounds {lo hi : Int} {l : List BlockMetaData} (h : covers lo hi l) :
    ∀ blk ∈ l, lo ≤ blk.BeginOffset ∧ blk.BeginOffset ≤ blk.EndOffset ∧ blk.EndOffset ≤ hi := by
  induction l generalizing lo with
  | nil => intro blk hmem; simp at hmem
  | cons b rest ih =>
      obtain ⟨hb, hle, hhi, hrest⟩ := h
      intro blk hmem
      rcases List.mem_cons.mp hmem with hblk | hmem'
      · subst hblk; omega
      · have := ih hrest blk hmem'
        omega

/-- Each point of the interval lies in exactly one block of a covering list. -/
theorem covers_existsUnique {lo hi : Int} {l : List BlockMetaData} (h : covers lo hi l) :
    ∀ x, lo ≤ x → x ≤ hi →
      ∃! blk, blk ∈ l ∧ blk.BeginOffset ≤ x ∧ x ≤ blk.EndOffset := by
  induction l generalizing lo with
  | nil => intro x hx1 hx2; simp only [covers] at h; omega
  | cons b rest ih =>
      obtain ⟨hb, hle, hhi, hrest⟩ := h
      intro x hx1 hx2
      by_cases hcase : x ≤ b.EndOffset
      · refine ⟨b, ⟨List.mem_cons_self b rest, by omega, hcase⟩, ?_⟩
        rintro blk ⟨hmem, hbx, hxe⟩
        rcases List.mem_cons.mp hmem with hblk | hmem'
        · exact hblk
        · have := covers_mem_bounds hrest blk hmem'
          omega
      · obtain ⟨blk, ⟨hmem, hbx, hxe⟩, huniq⟩ := ih hrest x (by omega) hx2
        refine ⟨blk, ⟨List.mem_cons_of_mem b hmem, hbx, hxe⟩, ?_⟩
        rintro blk' ⟨hmem', hbx', hxe'⟩
        rcases List.mem_cons.mp hmem' with hblk' | hmem''
        · subst hblk'; omega
        · exact huniq blk' ⟨hmem'', hbx', hxe'⟩

/-- The last block of a nonempty covering list ends exactly at `hi`. -/
theorem covers_getLast {lo hi : Int} {l : List BlockMetaData} (h : covers lo hi l)
    (hne : lo ≤ hi) :
    ∃ blk, l.getLast? = some blk ∧ blk.EndOffset = hi := by
  induction l generalizing lo with
  | nil => simp only [covers] at h; omega
  | cons b rest ih =>
      obtain ⟨hb, hle, hhi, hrest⟩ := h
      cases rest with
      | nil =>
          simp only [covers] at hrest
          exact ⟨b, rfl, by omega⟩
      | cons c rest' =>
          have hne' : b.EndOffset + 1 ≤ hi := by
            have := covers_mem_bounds hrest c (List.mem_cons_self c rest')
            omega
          obtain ⟨blk, hlast, hend⟩ := ih hrest hne'
          exact ⟨blk, by simpa using hlast, hend⟩

/-- The first block of a covering list begins exactly at `lo`. -/
theorem covers_head {lo hi : Int} {b : BlockMetaData}
    {rest : List BlockMetaData} (h : covers lo hi (b :: rest)) :
    b.BeginOffset = lo := h.1

/-- C1 (amended): on a 206 response with `contentLength > 1 MiB` and
`threadCount ≥ 2`, and provided `contentLength / threadCount > 10` (so the
computed block size is positive — otherwise the partition loop of the source
never terminates), `initDownload` computes
`blockSize = contentLength / threadCount − 10` and produces a block list
whose segments tile `[0, contentLength)` contiguously and disjointly, cover
every offset exactly once, and whose last segment ends at
`contentLength − 1`. -/
theorem initDownload_partitions (contentLength threadCount : Int) (body : List Nat)
    (h1 : 1024 * 1024 < contentLength) (h2 : 2 ≤ threadCount)
    (h3 : 10 < contentLength / threadCount) :
    blockSizeOf contentLength threadCount = contentLength / threadCount - 10 ∧
    ∃ bs, initDownload (some ⟨206, contentLength, body⟩) threadCount = some (.blocks bs) ∧
      covers 0 (contentLength - 1) bs ∧
      (∀ x, 0 ≤ x → x < contentLength →
        ∃! blk, blk ∈ bs ∧ blk.BeginOffset ≤ x ∧ x ≤ blk.EndOffset) ∧
      ∃ last, bs.getLast? = some last ∧ last.EndOffset = contentLength - 1 := by
  have hbs : blockSizeOf contentLength threadCount = contentLength / threadCount - 10 := by
    unfold blockSizeOf
    rw [if_pos h1]
  have hpos : 0 < contentLength / threadCount - 10 := by omega
  have hne : contentLength / threadCount - 10 ≠ contentLength := by
    have := Int.ediv_le_self threadCount (a := contentLength) (by omega)
    omega
  obtain ⟨l, hl, hcov⟩ :=
    partitionLoop_covers (contentLength / threadCount - 10) contentLength hpos 0 (by omega)
  refine ⟨hbs, l, ?_, hcov,
    fun x hx0 hxlt => covers_existsUnique hcov x hx0 (by omega), ?_⟩
  · simp only [initDownload, mkBlocks, hbs, hl]
    norm_num [hne, h1]
  · obtain ⟨last, hlast, hend⟩ := covers_getLast hcov (by omega)
    exact ⟨last, hlast, hend⟩

theorem initDownload_partitions_witness :
    blockSizeOf 10000000 4 = 10000000 / 4 - 10 ∧
    ∃ bs, initDownload (some ⟨206, 10000000, []⟩) 4 = some (.blocks bs) ∧
      covers 0 (10000000 - 1) bs ∧
      (∀ x, 0 ≤ x → x < 10000000 →
        ∃! blk, blk ∈ bs ∧ blk.BeginOffset ≤ x ∧ x ≤ blk.EndOffset) ∧
      ∃ last, bs.getLast? = some last ∧ last.EndOffset = 10000000 - 1 :=
  initDownload_partitions 10000000 4 [] (by decide) (by decide) (by decide)

/-- C1, as stated, is false: for `contentLength = 1048577 > 1 MiB` and
`threadCount = 1048577 ≥ 2` the computed block size is
`1048577 / 1048577 − 10 = −9 ≤ 0`, and the partition loop of the source
(`for tmp+blockSize < contentLength`) never terminates — no block list is
ever produced (`none` in the embedding). -/
theorem initDownload_partitions_cex :
    (1024 * 1024 : Int) < 1048577 ∧ (2 : Int) ≤ 1048577 ∧
    initDownload (some ⟨206, 1048577, []⟩) 1048577 = none := by
  refine ⟨by decide, by decide, ?_⟩
  simp [initDownload, blockSizeOf, mkBlocks]
  rw [partitionLoop]
  norm_num

/-- C2 (amended): for `contentLength = 10,000,000` and `threadCount = 4`,
the block size is `10,000,000/4 − 10 = 2,499,990` and `initDownload`
produces FIVE segments `[0,2499989] [2499990,4999979] [4999980,7499969]
[7499970,9999959] [9999960,9999999]`: since `4 × 2,499,990 = 9,999,960 <
10,000,000`, the loop emits a fourth full block and a fifth remainder
block. -/
theorem scenarioA_five_blocks :
    blockSizeOf 10000000 4 = 2499990 ∧
    initDownload (some ⟨206, 10000000, []⟩) 4 =
      some (.blocks [⟨0, 2499989, 0⟩, ⟨2499990, 4999979, 0⟩, ⟨4999980, 7499969, 0⟩,
        ⟨7499970, 9999959, 0⟩, ⟨9999960, 9999999, 0⟩]) ∧
    [(⟨0, 2499989, 0⟩ : BlockMetaData), ⟨2499990, 4999979, 0⟩, ⟨4999980, 7499969, 0⟩,
        ⟨7499970, 9999959, 0⟩, ⟨9999960, 9999999, 0⟩].length = 5 := by
  refine ⟨by decide, ?_, by decide⟩
  simp [initDownload, blockSizeOf, mkBlocks]
  rw [partitionLoop]; norm_num
  rw [partitionLoop]; norm_num
  rw [partitionLoop]; norm_num
  rw [partitionLoop]; norm_num
  rw [partitionLoop]; norm_num

/-- C2, as stated, is false: at `contentLength = 10,000,000`,
`threadCount = 4` the code produces 5 segments, not 4, and the fourth
segment is `[7499970, 9999959]`, not `[7499970, 9999999]`. -/
theorem scenarioA_cex :
    initDownload (some ⟨206, 10000000, []⟩) 4 =
      some (.blocks [⟨0, 2499989, 0⟩, ⟨2499990, 4999979, 0⟩, ⟨4999980, 7499969, 0⟩,
        ⟨7499970, 9999959, 0⟩, ⟨9999960, 9999999, 0⟩]) ∧
    [(⟨0, 2499989, 0⟩ : BlockMetaData), ⟨2499990, 4999979, 0⟩, ⟨4999980, 7499969, 0⟩,
        ⟨7499970, 9999959, 0⟩, ⟨9999960, 9999999, 0⟩].length ≠ 4 := by
  refine ⟨?_, by decide⟩
  simp [initDownload, blockSizeOf, mkBlocks]
  rw [partitionLoop]; norm_num
  rw [partitionLoop]; norm_num
  rw [partitionLoop]; norm_num
  rw [partitionLoop]; norm_num
  rw [partitionLoop]; norm_num

/-- C3: the claim states a short read surfaces as an error, but the code's
read loop breaks out on `io.EOF` and `downloadBlocks` returns `nil` even
when `BeginOffset ≤ EndOffset` still holds: for segment `[0, 9]` whose body
delivers 3 bytes and then EOF, the function returns success with
`BeginOffset = 3 ≤ 9 = EndOffset` and only 3 bytes written. -/
theorem downloadBlocks_short_read_succeeds :
    downloadBlocks (some (206, [([1, 2, 3], some .eof)])) ⟨0, 9, 0⟩ =
      .ok (⟨3, 9, 3⟩, [1, 2, 3]) ∧ (3 : Int) ≤ 9 :=
  ⟨rfl, by decide⟩

/-- C5 (amended): the range probe (`initDownload`) and the per-segment
request (`downloadBlocks`) return a fatal error on any status outside
`[200, 300)`; the single-stream path (`singleThreadDownload`) performs no
status check at all and returns the response body as the file content for
every status. -/
theorem status_check_paths
    (resp : HTTPResp) (threadCount : Int) (status : Int)
    (reads : List (List Nat × Option ReadErr)) (blk : BlockMetaData)
    (h1 : resp.status < 200 ∨ 300 ≤ resp.status)
    (h2 : status < 200 ∨ 300 ≤ status) :
    initDownload (some resp) threadCount = some (.err (.badStatus resp.status)) ∧
    downloadBlocks (some (status, reads)) blk = .error (.badStatus status) ∧
    ∀ r : HTTPResp, singleThreadDownload (some r) = .ok r.body := by
  refine ⟨?_, ?_, fun r => rfl⟩
  · simp [initDownload, h1]
  · simp [downloadBlocks, h2]

theorem status_check_paths_witness :
    initDownload (some ⟨404, 0, []⟩) 4 = some (.err (.badStatus 404)) ∧
    downloadBlocks (some (404, [])) ⟨0, 0, 0⟩ = .error (.badStatus 404) ∧
    ∀ r : HTTPResp, singleThreadDownload (some r) = .ok r.body :=
  status_check_paths ⟨404, 0, []⟩ 4 404 [] ⟨0, 0, 0⟩ (by decide) (by decide)

/-- C5, as stated, is false: `singleThreadDownload` has no status-code
check, so a 404 response's body is written to the file and the function
returns success. -/
theorem singleThreadDownload_ignores_status_cex :
    singleThreadDownload (some ⟨404, 2, [7, 7]⟩) = .ok [7, 7] ∧
    ((404 : Int) < 200 ∨ (300 : Int) ≤ 404) :=
  ⟨rfl, by decide⟩

/-- C9: on a fallback run — probe status 200, or status 206 with computed
block size equal to `contentLength` — `initDownload` first streams the
whole probe body into the destination via `copyStream` and signals
`ErrUnsupportedMultiThreading`, whereupon `Download` runs
`singleThreadDownload`, which truncates the file and downloads everything
again from a fresh response; the final file content is the second
response's body. -/
theorem fallback_downloads_twice (threadCount : Int) (probe r2 : HTTPResp)
    (h1 : 2 ≤ threadCount)
    (h2 : probe.status = 200 ∨
      (probe.status = 206 ∧ blockSizeOf probe.contentLength threadCount = probe.contentLength)) :
    initDownload (some probe) threadCount = some (.fallback probe.body) ∧
    Download threadCount (some probe) (some r2) =
      some (.single (some probe.body) (.ok r2.body)) := by
  have hinit : initDownload (some probe) threadCount = some (.fallback probe.body) := by
    rcases h2 with h200 | ⟨h206, hbs⟩
    · simp [initDownload, h200]
    · simp [initDownload, h206, hbs]
  refine ⟨hinit, ?_⟩
  simp only [Download, hinit]
  rw [if_neg (by omega)]
  rfl

/-- C4 (amended): in every reachable pool state the books balance — `Count`
equals started-minus-finished (every admission is matched by exactly one
increment and exactly one completion decrement, so after a full drain
`Count = 0` and completions equal admissions), and a dispatcher admission
only ever fires from a state with `Count < Limit`.  The original bound
`Count ≤ Limit` itself does NOT hold: the increment runs in the spawned
goroutine after admission, so several admissions can pass the gate before
any increment lands. -/
theorem workerPool_accounting (limit : Int) (burst : Nat) (s : PoolState)
    (h : PoolReachable limit burst s) :
    s.Limit = limit ∧
    s.Count = (s.started : Int) - (s.finished : Int) ∧
    s.started = s.running + s.finished ∧
    s.admitted = s.launched + s.started ∧
    s.queued + s.admitted = burst ∧
    (∀ s', Step s s' → s'.admitted = s.admitted + 1 → s.Count < s.Limit) ∧
    (s.launched = 0 → s.running = 0 → s.Count = 0 ∧ s.finished = s.admitted) := by
  have guard : ∀ t t' : PoolState, Step t t' → t'.admitted = t.admitted + 1 → t.Count < t.Limit := by
    intro t t' hstep
    cases hstep with
    | dispatch hq hgate => intro _; exact hgate
    | start hl => intro hadm; simp at hadm
    | finish hr => intro hadm; simp at hadm
  induction h with
  | refl =>
      refine ⟨rfl, by simp [initState], by simp [initState], by simp [initState],
        by simp [initState], guard _, by simp [initState]⟩
  | tail hsteps hstep ih =>
      obtain ⟨ih1, ih2, ih3, ih4, ih5, _, _⟩ := ih
      cases hstep with
      | dispatch hq hgate =>
          refine ⟨ih1, by simpa using ih2, by simpa using ih3, by simp <;> omega,
            by simp <;> omega, guard _, by simp <;> omega⟩
      | start hl =>
          refine ⟨ih1, by simp <;> omega, by simp <;> omega, by simp <;> omega,
            by simpa using ih5, guard _, by simp <;> omega⟩
      | finish hr =>
          refine ⟨ih1, by simp <;> omega, by simp <;> omega, by simpa using ih4,
            by simpa using ih5, guard _, by simp <;> omega⟩

theorem workerPool_accounting_witness :
    (initState 1 2).Limit = 1 ∧
    (initState 1 2).Count = ((initState 1 2).started : Int) - ((initState 1 2).finished : Int) ∧
    (initState 1 2).started = (initState 1 2).running + (initState 1 2).finished ∧
    (initState 1 2).admitted = (initState 1 2).launched + (initState 1 2).started ∧
    (initState 1 2).queued + (initState 1 2).admitted = 2 ∧
    (∀ s', Step (initState 1 2) s' →
      s'.admitted = (initState 1 2).admitted + 1 → (initState 1 2).Count < (initState 1 2).Limit) ∧
    ((initState 1 2).launched = 0 → (initState 1 2).running = 0 →
      (initState 1 2).Count = 0 ∧ (initState 1 2).finished = (initState 1 2).admitted) :=
  workerPool_accounting 1 2 (initState 1 2) Relation.ReflTransGen.refl

/-- C4, as stated, is false: with `Limit = 1` and a burst of 2 tasks, the
dispatcher can admit both tasks while `Count` is still 0 (the increments
run in the spawned goroutines), after which both increments land and the
sampled `Count = 2` exceeds `Limit = 1`. -/
theorem workerPool_count_exceeds_limit_cex :
    PoolReachable 1 2 ⟨1, 0, 0, 2, 2, 2, 2, 0⟩ ∧
    (⟨1, 0, 0, 2, 2, 2, 2, 0⟩ : PoolState).Limit <
      (⟨1, 0, 0, 2, 2, 2, 2, 0⟩ : PoolState).Count := by
  constructor
  · have h1 : Step (initState 1 2) ⟨1, 1, 1, 0, 0, 1, 0, 0⟩ :=
      Step.dispatch (by decide) (by decide)
    have h2 : Step ⟨1, 1, 1, 0, 0, 1, 0, 0⟩ ⟨1, 0, 2, 0, 0, 2, 0, 0⟩ :=
      Step.dispatch (by decide) (by decide)
    have h3 : Step ⟨1, 0, 2, 0, 0, 2, 0, 0⟩ ⟨1, 0, 1, 1, 1, 2, 1, 0⟩ :=
      Step.start (by decide)
    have h4 : Step ⟨1, 0, 1, 1, 1, 2, 1, 0⟩ ⟨1, 0, 0, 2, 2, 2, 2, 0⟩ :=
      Step.start (by decide)
    exact .head h1 (.head h2 (.head h3 (.head h4 .refl)))
  · decide

theorem fallback_downloads_twice_witness :
    initDownload (some ⟨200, 5, [1, 2]⟩) 4 = some (.fallback [1, 2]) ∧
    Download 4 (some ⟨200, 5, [1, 2]⟩) (some ⟨200, 5, [3, 4]⟩) =
      some (.single (some [1, 2]) (.ok [3, 4])) :=
  fallback_downloads_twice 4 ⟨200, 5, [1, 2]⟩ ⟨200, 5, [3, 4]⟩ (by decide) (Or.inl rfl)

/-- Characterization of the inner wait loop: when it resumes, the samples
it consumed are a run of readings that are failed or at/above the resume
threshold, closed by one successful reading strictly below it, and it slept
once per consumed sample. -/
theorem gateInner_spec :
    ∀ l k rem, gateInner l = some (k, rem) →
      1 ≤ k ∧ ∃ pre v, l = pre ++ .ok v :: rem ∧ v < RcloneResumeThreshold ∧
        k = pre.length + 1 ∧ ∀ w, ProbeSample.ok w ∈ pre → ¬(w < RcloneResumeThreshold) := by
  intro l
  induction l with
  | nil => intro k rem h; simp [gateInner] at h
  | cons s rest ih =>
      intro k rem h
      cases s with
      | ok v =>
          by_cases hv : v < RcloneResumeThreshold
          · rw [gateInner, if_pos hv] at h
            obtain ⟨hk, hrem⟩ := Prod.mk.injEq .. ▸ Option.some.inj h
            subst hk hrem
            exact ⟨le_refl 1, [], v, by simp, hv, by simp, by simp⟩
          · rw [gateInner, if_neg hv] at h
            cases hg : gateInner rest with
            | none => rw [hg] at h; simp at h
            | some p =>
                rw [hg] at h
                simp only [Option.map_some'] at h
                obtain ⟨hk, hrem⟩ := Prod.mk.injEq .. ▸ Option.some.inj h
                obtain ⟨h1, pre, v', heq, hv', hk', hpre⟩ := ih p.1 p.2 (by rw [hg])
                refine ⟨by omega, .ok v :: pre, v', ?_, hv', by simp; omega, ?_⟩
                · subst hrem; simp [heq]
                · intro w hw
                  rcases List.mem_cons.mp hw with hw1 | hw2
                  · cases hw1; exact hv
                  · exact hpre w hw2
      | fail =>
          rw [gateInner] at h
          cases hg : gateInner rest with
          | none => rw [hg] at h; simp at h
          | some p =>
              rw [hg] at h
              simp only [Option.map_some'] at h
              obtain ⟨hk, hrem⟩ := Prod.mk.injEq .. ▸ Option.some.inj h
              obtain ⟨h1, pre, v', heq, hv', hk', hpre⟩ := ih p.1 p.2 (by rw [hg])
              refine ⟨by omega, .fail :: pre, v', ?_, hv', by simp; omega, ?_⟩
              · subst hrem; simp [heq]
              · intro w hw
                rcases List.mem_cons.mp hw with hw1 | hw2
                · cases hw1
                · exact hpre w hw2

/-- C6: the gate's thresholds are 18 GiB (pause) and 15 GiB (resume); a
reading at or below the pause threshold lets relocation proceed with no
sleep; once a reading exceeds the pause threshold, relocation happens only
after a later successful reading strictly below the resume threshold, every
reading in between being failed or at/above the resume threshold, with one
poll-interval sleep before each of them (hence at least one sleep). -/
theorem gate_hysteresis :
    RclonePauseThreshold = 18 * 1024 * 1024 * 1024 ∧
    RcloneResumeThreshold = 15 * 1024 * 1024 * 1024 ∧
    (∀ u rest, u ≤ RclonePauseThreshold →
      gateLoop (.ok u :: rest) = some (0, rest)) ∧
    (∀ u rest k rem, RclonePauseThreshold < u →
      gateLoop (.ok u :: rest) = some (k, rem) →
      1 ≤ k ∧ ∃ pre v, rest = pre ++ .ok v :: rem ∧ v < RcloneResumeThreshold ∧
        k = pre.length + 1 ∧ ∀ w, ProbeSample.ok w ∈ pre → ¬(w < RcloneResumeThreshold)) := by
  refine ⟨rfl, rfl, ?_, ?_⟩
  · intro u rest hu
    rw [gateLoop, if_neg (by omega)]
  · intro u rest k rem hu h
    rw [gateLoop, if_pos hu] at h
    exact gateInner_spec rest k rem h

theorem gate_hysteresis_witness :
    gateLoop [ProbeSample.ok 0] = some (0, []) ∧
    (1 ≤ 2 ∧ ∃ pre v,
      ([ProbeSample.fail, ProbeSample.ok 0] : List ProbeSample) = pre ++ .ok v :: [] ∧
      v < RcloneResumeThreshold ∧ 2 = pre.length + 1 ∧
      ∀ w, ProbeSample.ok w ∈ pre → ¬(w < RcloneResumeThreshold)) :=
  ⟨gate_hysteresis.2.2.1 0 [] (by decide),
   gate_hysteresis.2.2.2 (RclonePauseThreshold + 1) [.fail, .ok 0] 2 []
     (by omega) (by decide)⟩

/-- C7: probe failures are transient — `n` consecutive failed probes only
add `n` poll-interval sleeps in front of whatever the gate would do on the
remaining samples; they never produce a task error and never skip
relocation, and if the probe keeps failing forever the gate simply never
proceeds (it has no failure outcome at all). -/
theorem probe_failures_only_delay (n : Nat) (rest : List ProbeSample) :
    gateLoop (List.replicate n .fail ++ rest) =
      (gateLoop rest).map (fun p => (p.1 + n, p.2)) ∧
    gateLoop (List.replicate n ProbeSample.fail) = none := by
  constructor
  · induction n with
    | zero => cases hg : gateLoop rest <;> simp [hg]
    | succ m ih =>
        rw [List.replicate_succ, List.cons_append, gateLoop, ih]
        cases hg : gateLoop rest <;> simp [hg] <;> omega
  · induction n with
    | zero => rfl
    | succ m ih => rw [List.replicate_succ, gateLoop, ih]; rfl

/-- C8: the staging file is deleted exactly when mkdir, open, create and
copy all succeeded; on any failure the staging file is left intact and the
failure is only logged; and after a successful download the executor never
invokes the on-failure hook, whatever relocation does. -/
theorem relocation_failure_keeps_staging (e : RelocEnv) :
    ((relocate e).stagingDeleted = true ↔
      e.mkdirOk = true ∧ e.openOk = true ∧ e.createOk = true ∧ e.copyOk = true) ∧
    ((relocate e).stagingDeleted = false → (relocate e).errorLogged = true) ∧
    (∀ samples outcome, runTask (.ok ()) true samples e = some outcome →
      outcome.hookCalled = false ∧ outcome.stagingRemoved = (relocate e).stagingDeleted) := by
  obtain ⟨m, o, c, cp⟩ := e
  refine ⟨?_, ?_, ?_⟩
  · cases m <;> cases o <;> cases c <;> cases cp <;> simp [relocate]
  · cases m <;> cases o <;> cases c <;> cases cp <;> simp [relocate]
  · intro samples outcome h
    simp only [runTask] at h
    cases hg : gateLoop samples with
    | none => rw [hg] at h; simp at h
    | some p =>
        rw [hg] at h
        obtain rfl := Option.some.inj h
        exact ⟨rfl, rfl⟩

theorem relocation_failure_keeps_staging_witness :
    ((relocate ⟨true, true, true, false⟩).stagingDeleted = true ↔
      (true = true ∧ true = true ∧ true = true ∧ false = true)) ∧
    ((relocate ⟨true, true, true, false⟩).stagingDeleted = false →
      (relocate ⟨true, true, true, false⟩).errorLogged = true) ∧
    (∀ samples outcome, runTask (.ok ()) true samples ⟨true, true, true, false⟩ = some outcome →
      outcome.hookCalled = false ∧
      outcome.stagingRemoved = (relocate ⟨true, true, true, false⟩).stagingDeleted) :=
  relocation_failure_keeps_staging ⟨true, true, true, false⟩

/-- C10 (amended): for every HTTP status (the source never checks it), a
response body that is a JSON object with no member matching `diskCache` —
neither exactly nor under `encoding/json`'s case-insensitive fallback — or
whose `diskCache` is an object with no member matching `bytesUsed`, decodes
to the zero value: `getRcloneCacheUsage` returns usage 0 with a nil error,
and the gate sees `0 ≤` pause threshold and lets relocation proceed with no
sleep.  For valid JSON of any other top-level shape (array, number, string,
boolean) `json.Unmarshal` into the struct fails, so the probe reports an
error, not 0. -/
theorem missing_diskCache_reads_zero (status : Int) (members : List (String × Json))
    (rest : List ProbeSample) (h : jsonMember members "diskCache" = none) :
    getRcloneCacheUsage (some (status, .obj members)) = .ok 0 ∧
    gateLoop (probeSampleOf (some (status, .obj members)) :: rest) = some (0, rest) ∧
    (∀ members2, jsonMember members2 "bytesUsed" = none →
      getRcloneCacheUsage (some (status, .obj [("diskCache", .obj members2)])) = .ok 0) := by
  have husage : getRcloneCacheUsage (some (status, .obj members)) = .ok 0 := by
    simp [getRcloneCacheUsage, unmarshalStats, h, decodeDiskCache]
  refine ⟨husage, ?_, ?_⟩
  · have hsample : probeSampleOf (some (status, .obj members)) = .ok 0 := by
      simp [probeSampleOf, husage]
    rw [hsample, gateLoop, if_neg (by norm_num [RclonePauseThreshold])]
  · intro members2 h2
    have hdc : jsonMember [("diskCache", .obj members2)] "diskCache" = some (.obj members2) := rfl
    simp [getRcloneCacheUsage, unmarshalStats, hdc, decodeDiskCache, h2, decodeBytesUsed]

theorem missing_diskCache_reads_zero_witness :
    getRcloneCacheUsage (some (500, .obj [("error", .str "x")])) = .ok 0 ∧
    gateLoop (probeSampleOf (some (500, .obj [("error", .str "x")])) :: []) = some (0, []) ∧
    (∀ members2, jsonMember members2 "bytesUsed" = none →
      getRcloneCacheUsage (some (500, .obj [("diskCache", .obj members2)])) = .ok 0) :=
  missing_diskCache_reads_zero 500 [("error", .str "x")] [] (by rfl)

/-- C10, as stated, is false for non-object valid JSON: an empty JSON
array is valid JSON with no `diskCache.bytesUsed` field, yet
`json.Unmarshal` into `RcloneVFSStats` fails on it, so
`getRcloneCacheUsage` returns an error (treated as a transient probe
failure), not usage 0 with a nil error. -/
theorem unmarshal_array_errors_cex :
    getRcloneCacheUsage (some (200, .arr [])) = .error () ∧
    getRcloneCacheUsage (some (200, .arr [])) ≠ .ok 0 :=
  ⟨rfl, fun h => Except.noConfusion h⟩

end Spider
